import Mathlib

/-!
Verification of the pill_duck firmware core (record codec, persistent script
store, execution engine, pattern generator, command processor).

The C sources are embedded shallowly:

* byte memory (`Mem`) models raw `uint8_t` regions (the flash `user_data`
  region, the typing buffer handed to `process_serial_command`, stack
  arrays); reads truncate to a byte as a `uint8_t` load does;
* `struct composite_report` arrays (`packet_buffer`, the output of
  `convert_ducky_binary`) are modelled as `RecArr`: record index → byte
  offset inside the packed 16-byte struct → byte.  Field writes such as
  `out[j].keyboard.modifiers = v` become `setField out j 1 v`, using the
  packed offset of the field (the union members overlap exactly as in C:
  `keyboard.modifiers`, `mouse.buttons` and `padding[0]` all live at
  offset 1);
* the global execution/cursor state of `main.c` (`report_index`, `paused`,
  `single_step`, `delaying`, `delay_ticks_remaining`) together with the
  stored flash script and the scratch `packet_buffer` form one state
  record `Duck`;
* the external flash medium driver (libopencm3 `flash_erase_page`,
  `flash_program_word`, `flash_get_status_flags` and the memory-mapped
  read-back) is out of scope of the repository and is abstracted as a
  `Medium` oracle: the status observed after the erase, the status
  observed after programming a given word, and the value read back after
  programming a given word;
* the USB output sink (`usbd_ep_write_packet`) is consumed through a
  retry-until-accepted loop in the C code, so a successful emission of one
  packet per attempt is modelled by returning the emitted packet bytes.
-/

namespace PillDuck

/-- Byte-addressed memory (a C `uint8_t *` region); values are read through
`rd`, which truncates to a byte exactly as a `uint8_t` load does. -/
abbrev Mem : Type := Nat → Nat

/-- Read one byte from memory (a `uint8_t` load). -/
def rd (m : Mem) (a : Nat) : Nat := m a % 256

/-- An array of packed 16-byte `struct composite_report` values:
record index → byte offset within the struct → byte. -/
abbrev RecArr : Type := Nat → Nat → Nat

/-- Write one byte field of record `j` at packed offset `k`
(`out[j].field = v` in C); the store truncates to a byte. -/
def setField (m : RecArr) (j k v : Nat) : RecArr :=
  fun j' k' => if j' = j ∧ k' = k then v % 256 else m j' k'

/-- Sequence of field writes to record `j` (offset, value pairs). -/
def setFields (m : RecArr) (j : Nat) (ps : List (Nat × Nat)) : RecArr :=
  ps.foldl (fun acc p => setField acc j p.1 p.2) m

/-- View a `composite_report` array as the raw bytes it occupies
(the packed struct is exactly 16 bytes). -/
def recArrBytes (m : RecArr) : Mem := fun a => m (a / 16) (a % 16)

/-! ### Constants from hid.h and flash.h -/

def REPORT_ID_NOP : Nat := 0
def REPORT_ID_KEYBOARD : Nat := 1
def REPORT_ID_MOUSE : Nat := 2
def REPORT_ID_DELAY : Nat := 254
def REPORT_ID_END : Nat := 255

def RESULT_OK : Nat := 0
def FLASH_WRONG_DATA_WRITTEN : Nat := 0x80

/-- libopencm3 `FLASH_SR_EOP` (end-of-operation status flag) for the
STM32F1: bit 5 of `FLASH_SR`. -/
def FLASH_SR_EOP : Nat := 0x20

def FLASH_PAGE_SIZE : Nat := 0x400

/-- Modulus of the `uint32_t` `report_index` variable. -/
def UINT32_MOD : Nat := 4294967296

/-- `uint32_t` increment (`++report_index`). -/
def succ32 (i : Nat) : Nat := (i + 1) % UINT32_MOD

/-- Interpret a stored byte as the signed `int8_t` it denotes
(the HID mouse X/Y/wheel deltas are signed on the wire). -/
def toInt8 (v : Nat) : Int := if v % 256 < 128 then (v % 256 : Int) else (v % 256 : Int) - 256

/-- Convert a C integer expression to the `uint8_t` actually stored
(e.g. `mouse.x = -1` stores `0xff`). -/
def toByte (v : Int) : Nat := (v % 256).toNat

/-! ### Global device state (main.c globals) -/

/-- The global mutable state of main.c: the execution cursor
(`report_index`, `paused`, `single_step`, `delaying`,
`delay_ticks_remaining`), the flash-resident script `user_data`
(raw bytes), and the RAM scratch `packet_buffer` (an array of
`composite_report`). -/
structure Duck where
  report_index : Nat
  paused : Bool
  single_step : Bool
  delaying : Bool
  delay_ticks_remaining : Int
  user_data : Mem
  packet_buffer : RecArr

/-- The `len` wire bytes of the record at index `i` of the script, as
handed to `usbd_ep_write_packet(usbd_dev, 0x81, &report, len)`:
the packed struct starts with `report_id`, then the payload. -/
def recordBytes (flash : Mem) (i len : Nat) : List Nat :=
  (List.range len).map fun k => rd flash (16 * i + k)

/-- Emission tail of `sys_tick_handler` for a Keyboard (`len = 9`) or
Mouse (`len = 5`) record: the packet is retried until the endpoint
accepts it (modelled as accepted), then single-step handling runs and
the index advances. -/
def emitStep (d : Duck) (len : Nat) : Duck × Option (List Nat) :=
  let d1 := if d.single_step then { d with single_step := false, paused := true } else d
  ({ d1 with report_index := succ32 d1.report_index },
   some (recordBytes d.user_data d.report_index len))

/-- `sys_tick_handler` of main.c: one tick of the execution engine.
Returns the new state and the packet emitted to the output sink this
tick, if any. -/
def sys_tick_handler (d : Duck) : Duck × Option (List Nat) :=
  if d.paused ∧ ¬ d.single_step then (d, none)
  else
    let base := 16 * d.report_index
    let id := rd d.user_data base
    if id = REPORT_ID_NOP then (d, none)
    else if id = REPORT_ID_DELAY then
      if ¬ d.delaying then
        ({ d with delay_ticks_remaining := (rd d.user_data (base + 1) : Int),
                  delaying := true }, none)
      else
        let r := d.delay_ticks_remaining - 1
        if r ≤ 0 then
          ({ d with delay_ticks_remaining := r, delaying := false,
                    report_index := succ32 d.report_index }, none)
        else ({ d with delay_ticks_remaining := r }, none)
    else if id = REPORT_ID_KEYBOARD then emitStep d 9
    else if id = REPORT_ID_MOUSE then emitStep d 5
    else ({ d with report_index := 0 }, none)

/-- Run `n` consecutive ticks, collecting the per-tick emissions. -/
def tickTrace : Duck → Nat → Duck × List (Option (List Nat))
  | d, 0 => (d, [])
  | d, n + 1 =>
    let s := sys_tick_handler d
    let t := tickTrace s.1 n
    (t.1, s.2 :: t.2)

/-- Number of records a tick emitted (the engine returns at most one
packet per tick by construction of the retry loop). -/
def emittedCount (e : Option (List Nat)) : Nat :=
  match e with
  | none => 0
  | some _ => 1

/-! ### Record codec: convert_ducky_binary (main.c) -/

/-- Loop body of `convert_ducky_binary`, structurally recursive on the
number of 16-bit words left to read.  `i` is the input byte offset,
`j` the output record index.  A word with zero low byte writes one
Delay record; any other word writes a key-press record followed by an
all-up release record. -/
def convertWords (buf : Mem) : Nat → Nat → Nat → RecArr → Nat × RecArr
  | 0, _, j, out => (j, out)
  | n + 1, i, j, out =>
    let lo := rd buf i
    let hi := rd buf (i + 1)
    if lo = 0 then
      convertWords buf n (i + 2) (j + 1)
        (setFields out j [(0, REPORT_ID_DELAY), (1, hi)])
    else
      let out1 := setFields out j
        [(0, REPORT_ID_KEYBOARD), (1, hi), (2, 1), (3, lo),
         (4, 0), (5, 0), (6, 0), (7, 0), (8, 0), (9, 0)]
      let out2 := setFields out1 (j + 1)
        [(0, REPORT_ID_KEYBOARD), (1, 0), (2, 1), (3, 0),
         (4, 0), (5, 0), (6, 0), (7, 0), (8, 0), (9, 0)]
      convertWords buf n (i + 2) (j + 2) out2

/-- `convert_ducky_binary(buf, len, out)` of main.c: decode compiled
DuckyScript bytecode into `composite_report` records.  An odd trailing
byte is dropped (`if ((len % 2) != 0) len -= 1`), and one End record is
appended after the last generated record.  Returns the record count and
the updated output array. -/
def convert_ducky_binary (buf : Mem) (len : Nat) (out : RecArr) : Nat × RecArr :=
  let len2 := len - len % 2
  let r := convertWords buf (len2 / 2) 0 0 out
  (r.1 + 1, setField r.2 r.1 0 REPORT_ID_END)

/-! ### Pattern generator: add_mouse_jiggler (main.c) -/

/-- One of the two `for` loops of `add_mouse_jiggler`: write `n` Mouse
records with X delta byte `dx` starting at record index `j`. -/
def jigLoop (dx : Nat) : Nat → Nat → RecArr → Nat × RecArr
  | 0, j, m => (j, m)
  | n + 1, j, m =>
    jigLoop dx n (j + 1)
      (setFields m j [(0, REPORT_ID_MOUSE), (1, 0), (2, dx), (3, 0), (4, 0)])

/-- `add_mouse_jiggler(width)` of main.c: `width` unit moves right
(`mouse.x = 1`), `width` unit moves left (`mouse.x = -1`, stored as the
byte `0xff`), then one End record, written into the scratch record
array.  Returns the record count and the updated array. -/
def add_mouse_jiggler (width : Nat) (pb : RecArr) : Nat × RecArr :=
  let r1 := jigLoop (toByte 1) width 0 pb
  let r2 := jigLoop (toByte (-1)) width r1.1 r1.2
  (r2.1 + 1, setField r2.2 r2.1 0 REPORT_ID_END)

/-! ### Hex utilities (hex_utils.c) -/

/-- The `hexdigits` lookup table. -/
def hexdigits : List Char :=
  [Char.ofNat 48, Char.ofNat 49, Char.ofNat 50, Char.ofNat 51,
   Char.ofNat 52, Char.ofNat 53, Char.ofNat 54, Char.ofNat 55,
   Char.ofNat 56, Char.ofNat 57, Char.ofNat 97, Char.ofNat 98,
   Char.ofNat 99, Char.ofNat 100, Char.ofNat 101, Char.ofNat 102]

/-- `hexify(hex, buf, size)`: each input byte becomes two lowercase hex
characters (high nibble first); the result is the written string. -/
def hexify (buf : Mem) (size : Nat) : String :=
  String.mk ((List.range size).foldr
    (fun k acc => hexdigits.getD (rd buf k / 16) default ::
                  hexdigits.getD (rd buf k % 16) default :: acc) [])

/-- `unhex_digit(hex)` of hex_utils.c, with `uint8_t` wraparound kept:
`tmp = hex - '0'; if (tmp > 9) tmp -= 'A' - '0' - 10; if (tmp > 16)
tmp -= 'a' - 'A';` (the subtractions are mod 256). -/
def unhex_digit (c : Nat) : Nat :=
  let t1 := (c + 208) % 256
  let t2 := if t1 > 9 then (t1 + 249) % 256 else t1
  if t2 > 16 then (t2 + 224) % 256 else t2

/-- `unhexify(buf, hex, size)` of hex_utils.c: produce `size` bytes,
consuming exactly `2 * size` characters of `hex`; byte `k` is
`unhex_digit(hex[2k]) << 4 | unhex_digit(hex[2k+1])` (stored through a
`uint8_t`, hence the truncation of the shifted high nibble).  Bytes of
the destination at or past `size` keep their previous value `dst`. -/
def unhexify (dst : Mem) (hex : Mem) (size : Nat) : Mem :=
  fun k =>
    if k < size then
      (unhex_digit (rd hex (2 * k)) <<< 4) % 256 ||| unhex_digit (rd hex (2 * k + 1))
    else dst k

/-! ### Persistent script store: flash_program_data (flash.c)

The physical medium driver (libopencm3) is external to the repository;
it is abstracted as an oracle `Medium` giving the status observed after
the page erase, the status observed after programming a word, and the
value read back from a word after it has been programmed.  A healthy
medium reports `FLASH_SR_EOP` everywhere and reads back exactly what
was programmed. -/

/-- Oracle for the external flash medium: `eraseStatus` is the value of
`flash_get_status_flags()` after `flash_erase_page`; `progStatus o v`
the status after `flash_program_word` wrote value `v` at word offset
`o` (relative to the region start); `readBack o v` the word read back
from offset `o` after `v` was programmed there. -/
structure Medium where
  eraseStatus : Nat
  progStatus : Nat → Nat → Nat
  readBack : Nat → Nat → Nat

/-- The 32-bit little-endian word loaded from byte offset `o` of a
buffer (`*((uint32_t*)(input_data + iter))` on the Cortex-M3). -/
def word32 (input : Mem) (o : Nat) : Nat :=
  rd input o + 256 * rd input (o + 1) + 65536 * rd input (o + 2) +
    16777216 * rd input (o + 3)

/-- Byte `k` (0–3, little-endian) of a 32-bit word. -/
def byteOfWord (w k : Nat) : Nat := w / 256 ^ k % 256

/-- The word offsets the programming loop of `flash_program_data`
visits: `iter = 0, 4, 8, ...` while `iter < num_elements`. -/
def progOffsets (n : Nat) : List Nat := (List.range ((n + 3) / 4)).map (· * 4)

/-- The programming loop of `flash_program_data`: program each word,
check the medium status (returning the raw status on a fault), then
verify by read-back (returning `FLASH_WRONG_DATA_WRITTEN` on the first
mismatch).  Also returns the list of word offsets that were actually
programmed before the function returned. -/
def progLoop (m : Medium) (input : Mem) : List Nat → Nat × List Nat
  | [] => (RESULT_OK, [])
  | o :: rest =>
    let v := word32 input o
    let st := m.progStatus o v
    if st ≠ FLASH_SR_EOP then (st, [o])
    else if m.readBack o v ≠ v then (FLASH_WRONG_DATA_WRITTEN, [o])
    else
      let r := progLoop m input rest
      (r.1, o :: r.2)

/-- `flash_program_data(start, input, num_elements)` of flash.c, at word
offsets relative to the (page-aligned) region start: erase the page,
check the status (returning it raw on a fault, with nothing programmed),
then run the program/verify loop.  Returns the result code and the list
of word offsets programmed. -/
def flash_program_data (m : Medium) (input : Mem) (n : Nat) : Nat × List Nat :=
  if m.eraseStatus ≠ FLASH_SR_EOP then (m.eraseStatus, [])
  else progLoop m input (progOffsets n)

/-- The flash image of the erased/programmed page after a
`flash_program_data` call: programmed words hold the value the medium
retained (`readBack`), the rest of the 1 KB page is erased (`0xff`),
bytes outside the page keep their old value.  (On an erase fault the C
leaves the page in an unspecified partially-erased state; it is
modelled as fully erased — no claim depends on that corner.) -/
def flashApply (m : Medium) (input : Mem) (n : Nat) (old : Mem) : Mem :=
  let tr := (flash_program_data m input n).2
  fun a =>
    if a < FLASH_PAGE_SIZE then
      if a / 4 * 4 ∈ tr then
        byteOfWord (m.readBack (a / 4 * 4) (word32 input (a / 4 * 4))) (a % 4)
      else 255
    else old a

/-! ### Command processor: process_serial_command (main.c) -/

/-- Modelled from the spec: version.h is not among the sources; the `v`
reply is a static version string. -/
def FIRMWARE_VERSION : String := "1.0"

/-- The all-zero stack array `char binary[1024] = {0}` (modelled as an
unbounded zero memory; the C code has no bounds check). -/
def zeroMem : Mem := fun _ => 0

/-- Reply chosen from the result of `flash_program_data`. -/
def write_reply (result : Nat) : String :=
  if result = RESULT_OK then "wrote flash"
  else if result = FLASH_WRONG_DATA_WRITTEN then "wrong data written"
  else "error writing flash"

/-- The `w`/`d` branch of `process_serial_command`:
`binary_len = len / 2`, then `unhexify(binary, &buf[1], len)` — note the
`size` argument is `len`, the full line length — then for `d` the
bytecode conversion into `packet_buffer`, then
`flash_program_data((uint32_t)&user_data, to_write, binary_len)`. -/
def serial_write_branch (m : Medium) (d : Duck) (buf : Mem) (len : Nat)
    (isDucky : Bool) : String × Duck :=
  let binary_len := len / 2
  let binary := unhexify zeroMem (fun k => buf (1 + k)) len
  if isDucky then
    let conv := convert_ducky_binary binary binary_len d.packet_buffer
    let binary_len2 := conv.1 * 16
    let result := (flash_program_data m (recArrBytes conv.2) binary_len2).1
    (write_reply result,
     { d with packet_buffer := conv.2,
              user_data := flashApply m (recArrBytes conv.2) binary_len2 d.user_data })
  else
    let result := (flash_program_data m binary binary_len).1
    (write_reply result,
     { d with user_data := flashApply m binary binary_len d.user_data })

/-- `process_serial_command(buf, len)` of main.c.  `buf` is the typing
buffer (the first byte is the single-letter command), `len` the number
of accumulated line characters (including the command byte and the
terminating CR/LF, see `usbuart_usb_out_cb`).  Returns the reply string
and the updated device state. -/
def process_serial_command (m : Medium) (d : Duck) (buf : Mem) (len : Nat) :
    String × Duck :=
  let c := rd buf 0
  if c = 118 then ("Pill Duck version " ++ FIRMWARE_VERSION, d)
  else if c = 63 then ("see source code for help", d)
  else if c = 119 ∨ c = 100 then serial_write_branch m d buf len (c = 100)
  else if c = 106 then
    let jig := add_mouse_jiggler 30 d.packet_buffer
    let binary_len := jig.1 * 16
    let result := (flash_program_data m (recArrBytes jig.2) binary_len).1
    (write_reply result,
     { d with packet_buffer := jig.2,
              user_data := flashApply m (recArrBytes jig.2) binary_len d.user_data })
  else if c = 114 then (hexify d.user_data 16, d)
  else if c = 64 then
    (hexify (fun k => d.report_index / 256 ^ k % 256) 4, d)
  else if c = 112 then
    (if ¬ d.paused then "paused" else "resumed", { d with paused := ¬ d.paused })
  else if c = 115 then ("step", { d with single_step := true })
  else if c = 122 then ("", { d with report_index := 0 })
  else ("invalid command, try ? for help", d)

/-! ### Structured record view and spec-side decoders

`SpecRecord` is the structured (tagged-variant) reading of a stored
16-byte record, used to state the codec and pattern-generator claims;
`readRecord` reads it off a record array.  `duckySpecExpand` follows the
spec's words for the bytecode decoder and is compared against
`convert_ducky_binary`. -/

/-- Structured view of one record: the tag plus the payload fields the
spec names for that tag. -/
inductive SpecRecord where
  | keyboard (modifiers reserved key0 key1 key2 key3 key4 key5 leds : Nat)
  | pointer (buttons x y wheel : Nat)
  | delay (duration : Nat)
  | endRec
  | other (tag : Nat)
deriving DecidableEq

/-- Read record `j` of an array through the packed layout: tag at
offset 0, Keyboard payload at offsets 1–9, Mouse payload at offsets
1–4, Delay duration at offset 1. -/
def readRecord (m : RecArr) (j : Nat) : SpecRecord :=
  if m j 0 = REPORT_ID_KEYBOARD then
    SpecRecord.keyboard (m j 1) (m j 2) (m j 3) (m j 4) (m j 5) (m j 6)
      (m j 7) (m j 8) (m j 9)
  else if m j 0 = REPORT_ID_MOUSE then
    SpecRecord.pointer (m j 1) (m j 2) (m j 3) (m j 4)
  else if m j 0 = REPORT_ID_DELAY then SpecRecord.delay (m j 1)
  else if m j 0 = REPORT_ID_END then SpecRecord.endRec
  else SpecRecord.other (m j 0)

/-- The list of records an array holds at indices `0 .. n-1`. -/
def recordsOut (m : RecArr) (n : Nat) : List SpecRecord :=
  (List.range n).map (readRecord m)

/-- The 2-byte little-endian words of the bytecode input, read from
byte offset `i` (low byte first). -/
def wordsFrom (buf : Mem) : Nat → Nat → List (Nat × Nat)
  | _, 0 => []
  | i, n + 1 => (rd buf i, rd buf (i + 1)) :: wordsFrom buf (i + 2) n

/-- All words of a bytecode input of `len` bytes (a trailing odd byte
is dropped). -/
def duckyWords (buf : Mem) (len : Nat) : List (Nat × Nat) :=
  wordsFrom buf 0 ((len - len % 2) / 2)

/-- Modelled from the spec: a word with zero low byte is one Delay
record with duration = high byte; any other word expands to a press
(modifiers = high byte, first key slot = low byte, reserved = 1)
followed by an all-up release (reserved = 1). -/
def duckySpecExpand (w : Nat × Nat) : List SpecRecord :=
  if w.1 = 0 then [SpecRecord.delay w.2]
  else [SpecRecord.keyboard w.2 1 w.1 0 0 0 0 0 0,
        SpecRecord.keyboard 0 1 0 0 0 0 0 0 0]

/-- Modelled from the spec: the full bytecode decode — the expansion of
every word, terminated by one End record. -/
def duckySpecDecode (buf : Mem) (len : Nat) : List SpecRecord :=
  (duckyWords buf len).flatMap duckySpecExpand ++ [SpecRecord.endRec]

/-- Number of keystroke words (nonzero low byte) in a bytecode input. -/
def keyWordCount (buf : Mem) (len : Nat) : Nat :=
  ((duckyWords buf len).filter (fun w => decide (w.1 ≠ 0))).length

/-- Number of delay words (zero low byte) in a bytecode input. -/
def delayWordCount (buf : Mem) (len : Nat) : Nat :=
  ((duckyWords buf len).filter (fun w => decide (w.1 = 0))).length

/-- The signed X delta a record contributes (Pointer records carry
their X field as a signed byte; other records contribute nothing). -/
def xDelta (r : SpecRecord) : Int :=
  match r with
  | SpecRecord.pointer _ x _ _ => toInt8 x
  | _ => 0

/-- Both status and read-back of the word at offset `o` are good:
the medium reported `FLASH_SR_EOP` and the word read back equals the
word programmed. -/
def wordOK (m : Medium) (input : Mem) (o : Nat) : Bool :=
  m.progStatus o (word32 input o) = FLASH_SR_EOP ∧
    m.readBack o (word32 input o) = word32 input o

/-- The records of an array at indices `j .. j+n-1`. -/
def recordsFrom (m : RecArr) (j n : Nat) : List SpecRecord :=
  (List.range' j n).map (readRecord m)

/-! ### Concrete states used to instantiate the theorems -/

/-- A healthy flash medium: erase and every program report
`FLASH_SR_EOP`, and every word reads back exactly as programmed. -/
def mediumHealthy : Medium :=
  ⟨FLASH_SR_EOP, fun _ _ => FLASH_SR_EOP, fun _ v => v⟩

/-- Script `[Keyboard, Keyboard, End]` (all payload bytes zero). -/
def memC3 : Mem := fun a =>
  if a = 0 then 1 else if a = 16 then 1 else if a = 32 then 255 else 0

/-- Unpaused engine at index 0 over `memC3`. -/
def duckC3 : Duck := ⟨0, false, false, false, 0, memC3, fun _ _ => 0⟩

/-- Script whose every record is `Delay(3)`. -/
def memDelay3 : Mem := fun a => if a % 16 = 1 then 3 else 254

/-- Unpaused, non-delaying engine at index 0 over `memDelay3`. -/
def duckC4 : Duck := ⟨0, false, false, false, 0, memDelay3, fun _ _ => 0⟩

/-- Script whose record 0 is a Keyboard record (payload zero). -/
def memKbd : Mem := fun a => if a = 0 then 1 else 0

/-- Engine with the SingleStep flag set over `memKbd`. -/
def duckC5 : Duck := ⟨0, true, true, false, 0, memKbd, fun _ _ => 0⟩

/-- Script whose every record is `Delay(0)`. -/
def memDelay0 : Mem := fun a => if a % 16 = 0 then 254 else 0

/-- Unpaused, non-delaying engine at index 0 over `memDelay0`. -/
def duckC10 : Duck := ⟨0, false, false, false, 0, memDelay0, fun _ _ => 0⟩

/-- A paused device state with empty memories. -/
def duck0 : Duck := ⟨0, true, false, false, 0, fun _ => 0, fun _ _ => 0⟩

/-- A paused device state at cursor index 7. -/
def duck7 : Duck := ⟨7, true, false, false, 0, fun _ => 0, fun _ _ => 0⟩

/-- The received line `wab\r` followed by zeroed (fresh) typing-buffer
bytes. -/
def lineW1 : Mem := fun a =>
  if a = 0 then 119 else if a = 1 then 97 else if a = 2 then 98
  else if a = 3 then 13 else 0

/-- The received line `wab\r` followed by stale typing-buffer bytes
(`f` characters left over from an earlier, longer line). -/
def lineW2 : Mem := fun a =>
  if a = 0 then 119 else if a = 1 then 97 else if a = 2 then 98
  else if a = 3 then 13 else 102

/-- The received line `z\r` (reset command). -/
def lineZ : Mem := fun a => if a = 0 then 122 else if a = 1 then 13 else 0

/-- The received line `q\r` (unrecognized command byte). -/
def lineQ : Mem := fun a => if a = 0 then 113 else if a = 1 then 13 else 0

/-! ## Theorems -/

/-! ### Engine helper lemmas -/

theorem tickTrace_fst_succ (d : Duck) (n : Nat) :
    (tickTrace d (n + 1)).1 = (tickTrace (sys_tick_handler d).1 n).1 := rfl

theorem tickTrace_fst_add (d : Duck) (a : Nat) :
    ∀ b, (tickTrace d (a + b)).1 = (tickTrace (tickTrace d a).1 b).1 := by
  induction a generalizing d with
  | zero => intro b; rw [Nat.zero_add]; rfl
  | succ a ih =>
    intro b
    have h1 : a + 1 + b = (a + b) + 1 := by omega
    rw [h1, tickTrace_fst_succ, tickTrace_fst_succ, ih]

/-- A tick on an unpaused, non-stepping, delaying state whose current
record is a Delay simply decrements the countdown while it stays
positive. -/
theorem tick_delay_decrement (d : Duck) (hp : d.paused = false)
    (hss : d.single_step = false) (hd : d.delaying = true)
    (h0 : rd d.user_data (16 * d.report_index) = REPORT_ID_DELAY)
    (hr : 1 < d.delay_ticks_remaining) :
    sys_tick_handler d =
      ({ d with delay_ticks_remaining := d.delay_ticks_remaining - 1 }, none) := by
  unfold sys_tick_handler
  simp only [hp, hss, hd, h0, REPORT_ID_DELAY, REPORT_ID_NOP]
  norm_num
  omega

/-- A tick on a delaying state whose countdown has reached `≤ 1`
clears the Delaying flag and advances the cursor. -/
theorem tick_delay_final (d : Duck) (hp : d.paused = false)
    (hss : d.single_step = false) (hd : d.delaying = true)
    (h0 : rd d.user_data (16 * d.report_index) = REPORT_ID_DELAY)
    (hr : d.delay_ticks_remaining ≤ 1) :
    sys_tick_handler d =
      ({ d with delay_ticks_remaining := d.delay_ticks_remaining - 1,
                delaying := false, report_index := succ32 d.report_index }, none) := by
  unfold sys_tick_handler
  simp only [hp, hss, hd, h0, REPORT_ID_DELAY, REPORT_ID_NOP]
  norm_num
  omega

/-- A tick on an unpaused, non-stepping, non-delaying state whose
current record is a Delay latches the countdown and sets Delaying. -/
theorem tick_delay_latch (d : Duck) (hp : d.paused = false)
    (hss : d.single_step = false) (hd : d.delaying = false)
    (h0 : rd d.user_data (16 * d.report_index) = REPORT_ID_DELAY) :
    sys_tick_handler d =
      ({ d with delay_ticks_remaining := (rd d.user_data (16 * d.report_index + 1) : Int),
                delaying := true }, none) := by
  unfold sys_tick_handler
  simp [hp, hss, hd, h0, REPORT_ID_DELAY, REPORT_ID_NOP]

/-- Counting down: `k` ticks inside an active delay leave everything but
the countdown unchanged while `k` stays below the remaining ticks. -/
theorem delay_countdown (k : Nat) :
    ∀ d : Duck, d.paused = false → d.single_step = false → d.delaying = true →
      rd d.user_data (16 * d.report_index) = REPORT_ID_DELAY →
      (k : Int) < d.delay_ticks_remaining →
      (tickTrace d k).1 =
        { d with delay_ticks_remaining := d.delay_ticks_remaining - k } := by
  induction k with
  | zero =>
    intro d _ _ _ _ _
    show d = _
    simp
  | succ k ih =>
    intro d hp hss hd h0 hk
    have hk1 : (1 : Int) < d.delay_ticks_remaining := by push_cast at hk; omega
    rw [tickTrace_fst_succ, tick_delay_decrement d hp hss hd h0 hk1]
    dsimp only
    have hk2 : ((k : Int)) < d.delay_ticks_remaining - 1 := by push_cast at hk; omega
    rw [ih { d with delay_ticks_remaining := d.delay_ticks_remaining - 1 } hp hss hd h0 hk2]
    simp only [Duck.mk.injEq, true_and, and_true]
    push_cast
    ring

/-- A paused, non-stepping engine does nothing on a tick. -/
theorem tick_paused (d : Duck) (hp : d.paused = true) (hss : d.single_step = false) :
    sys_tick_handler d = (d, none) := by
  unfold sys_tick_handler
  simp [hp, hss]

/-- A running tick on a Keyboard record is the 9-byte emit step. -/
theorem tick_emit_kbd (d : Duck) (hrun : ¬(d.paused = true ∧ ¬ d.single_step = true))
    (h0 : rd d.user_data (16 * d.report_index) = REPORT_ID_KEYBOARD) :
    sys_tick_handler d = emitStep d 9 := by
  unfold sys_tick_handler
  rw [if_neg hrun]
  simp [h0, REPORT_ID_NOP, REPORT_ID_DELAY, REPORT_ID_KEYBOARD]

/-- A running tick on a Mouse record is the 5-byte emit step. -/
theorem tick_emit_mouse (d : Duck) (hrun : ¬(d.paused = true ∧ ¬ d.single_step = true))
    (h0 : rd d.user_data (16 * d.report_index) = REPORT_ID_MOUSE) :
    sys_tick_handler d = emitStep d 5 := by
  unfold sys_tick_handler
  rw [if_neg hrun]
  simp [h0, REPORT_ID_NOP, REPORT_ID_DELAY, REPORT_ID_KEYBOARD, REPORT_ID_MOUSE]

/-- A running tick on any other tag (End included) resets the cursor to
index 0 and emits nothing. -/
theorem tick_other (d : Duck) (hrun : ¬(d.paused = true ∧ ¬ d.single_step = true))
    (h0 : rd d.user_data (16 * d.report_index) ≠ REPORT_ID_NOP)
    (h1 : rd d.user_data (16 * d.report_index) ≠ REPORT_ID_DELAY)
    (h2 : rd d.user_data (16 * d.report_index) ≠ REPORT_ID_KEYBOARD)
    (h3 : rd d.user_data (16 * d.report_index) ≠ REPORT_ID_MOUSE) :
    sys_tick_handler d = ({ d with report_index := 0 }, none) := by
  unfold sys_tick_handler
  rw [if_neg hrun]
  simp [h0, h1, h2, h3]

/-- Only Keyboard and Mouse records make a tick emit. -/
theorem tick_emits_none (d : Duck)
    (h2 : rd d.user_data (16 * d.report_index) ≠ REPORT_ID_KEYBOARD)
    (h3 : rd d.user_data (16 * d.report_index) ≠ REPORT_ID_MOUSE) :
    (sys_tick_handler d).2 = none := by
  unfold sys_tick_handler
  repeat' split
  all_goals try rfl
  all_goals simp_all
  all_goals repeat' split
  all_goals rfl

/-- The emit step with SingleStep clear. -/
theorem emitStep_run (d : Duck) (hss : d.single_step = false) (len : Nat) :
    emitStep d len =
      ({ d with report_index := succ32 d.report_index },
       some (recordBytes d.user_data d.report_index len)) := by
  unfold emitStep
  simp [hss]

/-- The emit step with SingleStep set: clear it, set Paused, advance. -/
theorem emitStep_single (d : Duck) (hss : d.single_step = true) (len : Nat) :
    emitStep d len =
      ({ d with single_step := false, paused := true,
                report_index := succ32 d.report_index },
       some (recordBytes d.user_data d.report_index len)) := by
  unfold emitStep
  simp [hss]

/-! ### Claim theorems: execution engine -/

/-- Claim C6: on every single tick invocation, from every engine state
and for every stored script, the cursor index either stays unchanged,
increments by exactly one (`uint32_t` increment), or resets to 0 —
never more — and at most one record is emitted to the output sink. -/
theorem claim_C6_cursor_single_step_invariant (d : Duck) :
    ((sys_tick_handler d).1.report_index = d.report_index ∨
     (sys_tick_handler d).1.report_index = succ32 d.report_index ∨
     (sys_tick_handler d).1.report_index = 0) ∧
    emittedCount (sys_tick_handler d).2 ≤ 1 := by
  unfold sys_tick_handler emitStep
  by_cases hpp : d.paused = true ∧ ¬ d.single_step = true
  · simp [hpp, emittedCount, REPORT_ID_NOP, REPORT_ID_DELAY, REPORT_ID_KEYBOARD, REPORT_ID_MOUSE]
  · rw [if_neg hpp]
    by_cases h0 : rd d.user_data (16 * d.report_index) = 0
    · simp [h0, emittedCount, REPORT_ID_NOP, REPORT_ID_DELAY, REPORT_ID_KEYBOARD, REPORT_ID_MOUSE]
    · by_cases h1 : rd d.user_data (16 * d.report_index) = 254
      · by_cases hdl : d.delaying = true
        · by_cases hr : d.delay_ticks_remaining - 1 ≤ 0
          · simp [h0, h1, hdl, hr, emittedCount, REPORT_ID_NOP, REPORT_ID_DELAY, REPORT_ID_KEYBOARD, REPORT_ID_MOUSE]
          · simp [h0, h1, hdl, hr, emittedCount, REPORT_ID_NOP, REPORT_ID_DELAY, REPORT_ID_KEYBOARD, REPORT_ID_MOUSE]
        · simp [h0, h1, hdl, emittedCount, REPORT_ID_NOP, REPORT_ID_DELAY, REPORT_ID_KEYBOARD, REPORT_ID_MOUSE]
      · by_cases h2 : rd d.user_data (16 * d.report_index) = 1
        · by_cases hsx : d.single_step = true
          · simp [h0, h1, h2, hsx, emittedCount, REPORT_ID_NOP, REPORT_ID_DELAY, REPORT_ID_KEYBOARD, REPORT_ID_MOUSE]
          · simp [h0, h1, h2, hsx, emittedCount, REPORT_ID_NOP, REPORT_ID_DELAY, REPORT_ID_KEYBOARD, REPORT_ID_MOUSE]
        · by_cases h3 : rd d.user_data (16 * d.report_index) = 2
          · by_cases hsx : d.single_step = true
            · simp [h0, h1, h2, h3, hsx, emittedCount, REPORT_ID_NOP, REPORT_ID_DELAY, REPORT_ID_KEYBOARD, REPORT_ID_MOUSE]
            · simp [h0, h1, h2, h3, hsx, emittedCount, REPORT_ID_NOP, REPORT_ID_DELAY, REPORT_ID_KEYBOARD, REPORT_ID_MOUSE]
          · simp [h0, h1, h2, h3, emittedCount, REPORT_ID_NOP, REPORT_ID_DELAY, REPORT_ID_KEYBOARD, REPORT_ID_MOUSE]

/-- Claim C5: if SingleStep is set and a tick emits a record (which only
Keyboard and Pointer records do), then afterwards Paused is set,
SingleStep is clear, the cursor has advanced by exactly one, and a
further tick changes nothing and emits nothing. -/
theorem claim_C5_single_step_pauses (d : Duck) (hss : d.single_step = true)
    (hemit : (sys_tick_handler d).2.isSome = true) :
    (sys_tick_handler d).1.paused = true ∧
    (sys_tick_handler d).1.single_step = false ∧
    (sys_tick_handler d).1.report_index = succ32 d.report_index ∧
    sys_tick_handler (sys_tick_handler d).1 = ((sys_tick_handler d).1, none) := by
  have hrun : ¬(d.paused = true ∧ ¬ d.single_step = true) := by simp [hss]
  by_cases hkb : rd d.user_data (16 * d.report_index) = REPORT_ID_KEYBOARD
  · rw [tick_emit_kbd d hrun hkb, emitStep_single d hss 9]
    refine ⟨rfl, rfl, rfl, ?_⟩
    exact tick_paused _ rfl rfl
  · by_cases hms : rd d.user_data (16 * d.report_index) = REPORT_ID_MOUSE
    · rw [tick_emit_mouse d hrun hms, emitStep_single d hss 5]
      refine ⟨rfl, rfl, rfl, ?_⟩
      exact tick_paused _ rfl rfl
    · rw [tick_emits_none d hkb hms] at hemit
      simp at hemit

/-- Claim C5 witness: a concrete single-step tick over a Keyboard
record. -/
theorem claim_C5_single_step_pauses_witness :
    (sys_tick_handler duckC5).1.paused = true ∧
    (sys_tick_handler duckC5).1.single_step = false ∧
    (sys_tick_handler duckC5).1.report_index = succ32 duckC5.report_index ∧
    sys_tick_handler (sys_tick_handler duckC5).1 =
      ((sys_tick_handler duckC5).1, none) :=
  claim_C5_single_step_pauses duckC5 rfl (by decide)

/-- Claim C3: over the script `[Keyboard(A), Keyboard(B), End]` with the
engine unpaused at index 0, three ticks move the cursor 0→1→2→0 and
emit exactly the two Keyboard records, in order (the End record resets
the cursor without emitting). -/
theorem claim_C3_engine_pacing (d : Duck)
    (hp : d.paused = false) (hss : d.single_step = false) (hi : d.report_index = 0)
    (h0 : rd d.user_data 0 = REPORT_ID_KEYBOARD)
    (h1 : rd d.user_data 16 = REPORT_ID_KEYBOARD)
    (h2 : rd d.user_data 32 = REPORT_ID_END) :
    (tickTrace d 3).2 =
      [some (recordBytes d.user_data 0 9), some (recordBytes d.user_data 1 9), none] ∧
    (tickTrace d 1).1.report_index = 1 ∧
    (tickTrace d 2).1.report_index = 2 ∧
    (tickTrace d 3).1.report_index = 0 := by
  have hrun : ¬(d.paused = true ∧ ¬ d.single_step = true) := by simp [hp]
  have e1 : sys_tick_handler d =
      ({ d with report_index := 1 }, some (recordBytes d.user_data 0 9)) := by
    rw [tick_emit_kbd d hrun (by rw [hi]; simpa using h0), emitStep_run d hss 9, hi]
    norm_num [succ32, UINT32_MOD]
  have e2 : sys_tick_handler { d with report_index := 1 } =
      ({ d with report_index := 2 }, some (recordBytes d.user_data 1 9)) := by
    rw [tick_emit_kbd { d with report_index := 1 } (by simpa using hrun)
        (by simpa using h1),
      emitStep_run { d with report_index := 1 } hss 9]
    norm_num [succ32, UINT32_MOD]
  have e3 : sys_tick_handler { d with report_index := 2 } =
      ({ d with report_index := 0 }, none) := by
    have h2' : rd d.user_data (16 * (2 : Nat)) = REPORT_ID_END := by simpa using h2
    rw [tick_other { d with report_index := 2 } (by simpa using hrun)
        (by simp [h2', REPORT_ID_END, REPORT_ID_NOP])
        (by simp [h2', REPORT_ID_END, REPORT_ID_DELAY])
        (by simp [h2', REPORT_ID_END, REPORT_ID_KEYBOARD])
        (by simp [h2', REPORT_ID_END, REPORT_ID_MOUSE])]
  refine ⟨?_, ?_, ?_, ?_⟩ <;> simp [tickTrace, e1, e2, e3]

/-- Claim C3 witness: the concrete script `[Keyboard, Keyboard, End]`. -/
theorem claim_C3_engine_pacing_witness :
    (tickTrace duckC3 3).2 =
      [some (recordBytes duckC3.user_data 0 9),
       some (recordBytes duckC3.user_data 1 9), none] ∧
    (tickTrace duckC3 1).1.report_index = 1 ∧
    (tickTrace duckC3 2).1.report_index = 2 ∧
    (tickTrace duckC3 3).1.report_index = 0 :=
  claim_C3_engine_pacing duckC3 rfl rfl rfl (by decide) (by decide) (by decide)

/-- Claim C4: a `Delay(3)` record at the cursor of an unpaused engine
takes exactly 4 ticks (one to latch, three to count down) before the
cursor advances past it, and none of those ticks emits anything. -/
theorem claim_C4_delay_four_ticks (d : Duck)
    (hp : d.paused = false) (hss : d.single_step = false) (hd : d.delaying = false)
    (h0 : rd d.user_data (16 * d.report_index) = REPORT_ID_DELAY)
    (h1 : rd d.user_data (16 * d.report_index + 1) = 3) :
    (tickTrace d 4).2 = [none, none, none, none] ∧
    (tickTrace d 1).1.report_index = d.report_index ∧
    (tickTrace d 2).1.report_index = d.report_index ∧
    (tickTrace d 3).1.report_index = d.report_index ∧
    (tickTrace d 4).1.report_index = succ32 d.report_index := by
  have e1 : sys_tick_handler d =
      ({ d with delay_ticks_remaining := 3, delaying := true }, none) := by
    rw [tick_delay_latch d hp hss hd h0, h1]
    norm_num
  have e2 : sys_tick_handler { d with delay_ticks_remaining := 3, delaying := true } =
      ({ d with delay_ticks_remaining := 2, delaying := true }, none) := by
    have := tick_delay_decrement
      { d with delay_ticks_remaining := 3, delaying := true } hp hss rfl h0 (by norm_num)
    simpa using this
  have e3 : sys_tick_handler { d with delay_ticks_remaining := 2, delaying := true } =
      ({ d with delay_ticks_remaining := 1, delaying := true }, none) := by
    have := tick_delay_decrement
      { d with delay_ticks_remaining := 2, delaying := true } hp hss rfl h0 (by norm_num)
    simpa using this
  have e4 : sys_tick_handler { d with delay_ticks_remaining := 1, delaying := true } =
      ({ d with delay_ticks_remaining := 0, delaying := false,
                report_index := succ32 d.report_index }, none) := by
    have := tick_delay_final
      { d with delay_ticks_remaining := 1, delaying := true } hp hss rfl h0 (by norm_num)
    simpa using this
  refine ⟨?_, ?_, ?_, ?_, ?_⟩ <;> simp [tickTrace, e1, e2, e3, e4]

/-- Claim C4 witness: a concrete `Delay(3)` script. -/
theorem claim_C4_delay_four_ticks_witness :
    (tickTrace duckC4 4).2 = [none, none, none, none] ∧
    (tickTrace duckC4 1).1.report_index = duckC4.report_index ∧
    (tickTrace duckC4 2).1.report_index = duckC4.report_index ∧
    (tickTrace duckC4 3).1.report_index = duckC4.report_index ∧
    (tickTrace duckC4 4).1.report_index = succ32 duckC4.report_index :=
  claim_C4_delay_four_ticks duckC4 rfl rfl rfl (by decide) (by decide)

/-- Claim C10: a `Delay(N)` record holds the cursor for exactly `N + 1`
ticks when `N ≥ 1`, and a `Delay(0)` record still consumes 2 ticks (the
latch tick plus one countdown tick) — it is never free. -/
theorem claim_C10_zero_delay_two_ticks (d : Duck)
    (hp : d.paused = false) (hss : d.single_step = false) (hd : d.delaying = false)
    (h0 : rd d.user_data (16 * d.report_index) = REPORT_ID_DELAY) :
    (1 ≤ rd d.user_data (16 * d.report_index + 1) →
      (∀ k, k ≤ rd d.user_data (16 * d.report_index + 1) →
        (tickTrace d k).1.report_index = d.report_index) ∧
      (tickTrace d (rd d.user_data (16 * d.report_index + 1) + 1)).1.report_index =
        succ32 d.report_index) ∧
    (rd d.user_data (16 * d.report_index + 1) = 0 →
      (tickTrace d 1).1.report_index = d.report_index ∧
      (tickTrace d 2).1.report_index = succ32 d.report_index) := by
  have e1 := tick_delay_latch d hp hss hd h0
  constructor
  · intro hN
    set N := rd d.user_data (16 * d.report_index + 1) with hNdef
    constructor
    · intro k hk
      match k with
      | 0 => rfl
      | (k' + 1) =>
        rw [tickTrace_fst_succ, e1]
        have hc := delay_countdown k'
          { d with delay_ticks_remaining := (N : Int), delaying := true }
          hp hss rfl h0 (by push_cast; omega)
        rw [hc]
    · rw [tickTrace_fst_succ, e1]
      have hc := delay_countdown (N - 1)
        { d with delay_ticks_remaining := (N : Int), delaying := true }
        hp hss rfl h0 (by push_cast; omega)
      have e5 : ∀ D : Duck, (tickTrace D N).1 = (tickTrace (tickTrace D (N - 1)).1 1).1 := by
        intro D
        have hsplit : N = N - 1 + 1 := by omega
        conv_lhs => rw [hsplit]
        exact tickTrace_fst_add D (N - 1) 1
      rw [e5 _, hc]
      have e4 := tick_delay_final
        { d with delay_ticks_remaining := (N : Int) - ((N - 1 : Nat) : Int), delaying := true }
        hp hss rfl h0 (by show ((N : Int)) - ((N - 1 : Nat) : Int) ≤ 1; omega)
      show (tickTrace _ 1).1.report_index = _
      simp only [tickTrace, e4]
  · intro hN
    refine ⟨?_, ?_⟩
    · show (tickTrace d 1).1.report_index = _
      simp only [tickTrace, e1]
    · rw [show (2 : Nat) = 1 + 1 from rfl, tickTrace_fst_add]
      have t1 : (tickTrace d 1).1 =
          { d with delay_ticks_remaining := (rd d.user_data (16 * d.report_index + 1) : Int),
                   delaying := true } := by
        simp only [tickTrace, e1]
      rw [t1, hN]
      have e4 := tick_delay_final
        { d with delay_ticks_remaining := ((0 : Nat) : Int), delaying := true }
        hp hss rfl h0 (by norm_num)
      show (tickTrace _ 1).1.report_index = _
      simp only [tickTrace, e4]

/-- Claim C10 witness: a concrete `Delay(0)` script needs 2 ticks. -/
theorem claim_C10_zero_delay_two_ticks_witness :
    (1 ≤ rd duckC10.user_data (16 * duckC10.report_index + 1) →
      (∀ k, k ≤ rd duckC10.user_data (16 * duckC10.report_index + 1) →
        (tickTrace duckC10 k).1.report_index = duckC10.report_index) ∧
      (tickTrace duckC10
          (rd duckC10.user_data (16 * duckC10.report_index + 1) + 1)).1.report_index =
        succ32 duckC10.report_index) ∧
    (rd duckC10.user_data (16 * duckC10.report_index + 1) = 0 →
      (tickTrace duckC10 1).1.report_index = duckC10.report_index ∧
      (tickTrace duckC10 2).1.report_index = succ32 duckC10.report_index) :=
  claim_C10_zero_delay_two_ticks duckC10 rfl rfl rfl (by decide)

/-! ### Claim theorems: persistent script store -/

/-- When every word programs and verifies cleanly, the loop programs
them all and returns `RESULT_OK`. -/
theorem progLoop_all_ok (m : Medium) (input : Mem) :
    ∀ offs : List Nat, (∀ o ∈ offs, wordOK m input o = true) →
      progLoop m input offs = (RESULT_OK, offs) := by
  intro offs
  induction offs with
  | nil => intro _; rfl
  | cons o rest ih =>
    intro h
    have ho := h o (by simp)
    simp only [wordOK, decide_eq_true_eq] at ho
    have hrest := ih (fun x hx => h x (List.mem_cons_of_mem _ hx))
    simp [progLoop, ho.1, ho.2, hrest]

/-- The loop stops at the first bad word: words before it verified, the
bad word itself was still programmed, nothing after it was, and the
result code is the raw medium status (on a status fault) or
`FLASH_WRONG_DATA_WRITTEN` (on a read-back mismatch). -/
theorem progLoop_first_bad (m : Medium) (input : Mem) :
    ∀ (pre : List Nat) (bad : Nat) (rest : List Nat),
      (∀ o ∈ pre, wordOK m input o = true) → wordOK m input bad = false →
      progLoop m input (pre ++ bad :: rest) =
        ((if m.progStatus bad (word32 input bad) ≠ FLASH_SR_EOP
            then m.progStatus bad (word32 input bad)
          else FLASH_WRONG_DATA_WRITTEN), pre ++ [bad]) := by
  intro pre
  induction pre with
  | nil =>
    intro bad rest _ hbad
    simp only [wordOK, decide_eq_true_eq] at hbad
    by_cases hst : m.progStatus bad (word32 input bad) = FLASH_SR_EOP
    · have hrb : m.readBack bad (word32 input bad) ≠ word32 input bad := by
        intro hrb
        simp at hbad
        exact absurd (hbad hst hrb) (by simp)
      simp [progLoop, hst, hrb]
    · simp [progLoop, hst]
  | cons o pre' ih =>
    intro bad rest h hbad
    have ho := h o (by simp)
    simp only [wordOK, decide_eq_true_eq] at ho
    have hrest := ih bad rest (fun x hx => h x (List.mem_cons_of_mem _ hx)) hbad
    simp [progLoop, ho.1, ho.2, hrest]

/-- If the loop reports `RESULT_OK` (and the medium's fault statuses are
distinguishable from `RESULT_OK`), then every word was programmed and
read back equal to its input word. -/
theorem progLoop_ok_means_verified (m : Medium) (input : Mem)
    (hP : ∀ o v, m.progStatus o v = FLASH_SR_EOP ∨ m.progStatus o v ≠ RESULT_OK) :
    ∀ offs : List Nat, (progLoop m input offs).1 = RESULT_OK →
      (progLoop m input offs).2 = offs ∧
      ∀ o ∈ offs, m.readBack o (word32 input o) = word32 input o := by
  intro offs
  induction offs with
  | nil => intro _; exact ⟨rfl, by simp⟩
  | cons o rest ih =>
    intro h
    by_cases hst : m.progStatus o (word32 input o) = FLASH_SR_EOP
    · by_cases hrb : m.readBack o (word32 input o) = word32 input o
      · have hred : progLoop m input (o :: rest) =
            ((progLoop m input rest).1, o :: (progLoop m input rest).2) := by
          simp [progLoop, hst, hrb]
        rw [hred] at h
        obtain ⟨h2, h3⟩ := ih h
        refine ⟨by rw [hred]; simp [h2], ?_⟩
        intro x hx
        rcases List.mem_cons.mp hx with hx | hx
        · exact hx ▸ hrb
        · exact h3 x hx
      · exfalso
        simp [progLoop, hst, hrb, FLASH_WRONG_DATA_WRITTEN, RESULT_OK] at h
    · exfalso
      simp [progLoop, hst] at h
      rcases hP o (word32 input o) with h1 | h1
      · exact hst h1
      · exact h1 h

/-- Claim C7: `flash_program_data` returns `RESULT_OK` (0) only when
every programmed word read back equal to its input word; it stops at
the first bad word — returning the raw medium status if the medium
reported a fault after the erase or after that word, and the distinct
`FLASH_WRONG_DATA_WRITTEN` (0x80) code on a read-back mismatch —
programming no further words; and it returns `RESULT_OK` exactly when
the erase and every word succeed.  The two hypotheses state the medium
contract that fault statuses are distinguishable from `RESULT_OK`. -/
theorem claim_C7_store_program_result (m : Medium) (input : Mem) (n : Nat)
    (hE : m.eraseStatus = FLASH_SR_EOP ∨ m.eraseStatus ≠ RESULT_OK)
    (hP : ∀ o v, m.progStatus o v = FLASH_SR_EOP ∨ m.progStatus o v ≠ RESULT_OK) :
    ((flash_program_data m input n).1 = RESULT_OK →
      (flash_program_data m input n).2 = progOffsets n ∧
      ∀ o ∈ progOffsets n, m.readBack o (word32 input o) = word32 input o) ∧
    (m.eraseStatus ≠ FLASH_SR_EOP →
      flash_program_data m input n = (m.eraseStatus, [])) ∧
    (∀ pre bad rest, progOffsets n = pre ++ bad :: rest →
      (∀ o ∈ pre, wordOK m input o = true) → wordOK m input bad = false →
      m.eraseStatus = FLASH_SR_EOP →
      flash_program_data m input n =
        ((if m.progStatus bad (word32 input bad) ≠ FLASH_SR_EOP
            then m.progStatus bad (word32 input bad)
          else FLASH_WRONG_DATA_WRITTEN), pre ++ [bad])) ∧
    (m.eraseStatus = FLASH_SR_EOP → (∀ o ∈ progOffsets n, wordOK m input o = true) →
      flash_program_data m input n = (RESULT_OK, progOffsets n)) := by
  refine ⟨?_, ?_, ?_, ?_⟩
  · intro h
    by_cases hEr : m.eraseStatus = FLASH_SR_EOP
    · have hfl : flash_program_data m input n = progLoop m input (progOffsets n) := by
        simp [flash_program_data, hEr]
      rw [hfl] at h ⊢
      exact progLoop_ok_means_verified m input hP (progOffsets n) h
    · exfalso
      have : flash_program_data m input n = (m.eraseStatus, []) := by
        simp [flash_program_data, hEr]
      rw [this] at h
      rcases hE with h1 | h1
      · exact hEr h1
      · exact h1 h
  · intro hEr
    simp [flash_program_data, hEr]
  · intro pre bad rest hsplit hpre hbad hEr
    have hfl : flash_program_data m input n = progLoop m input (progOffsets n) := by
      simp [flash_program_data, hEr]
    rw [hfl, hsplit]
    exact progLoop_first_bad m input pre bad rest hpre hbad
  · intro hEr hall
    have hfl : flash_program_data m input n = progLoop m input (progOffsets n) := by
      simp [flash_program_data, hEr]
    rw [hfl]
    exact progLoop_all_ok m input (progOffsets n) hall

/-- Claim C7 witness: a healthy medium programs 8 bytes (two words) and
reports `RESULT_OK`. -/
theorem claim_C7_store_program_result_witness :
    flash_program_data mediumHealthy zeroMem 8 = (RESULT_OK, progOffsets 8) :=
  (claim_C7_store_program_result mediumHealthy zeroMem 8 (Or.inl rfl)
    (fun _ _ => Or.inl rfl)).2.2.2 rfl (by decide)

/-! ### Claim theorems: command processor dispatch -/

/-- Claim C9: dispatching the reset command (`z`, byte 122) zeroes the
cursor index regardless of its prior value and yields the empty reply;
dispatching a line whose leading byte is none of the ten recognized
commands returns the invalid-command reply and leaves the whole device
state — cursor fields and stored script — unchanged. -/
theorem claim_C9_reset_and_unknown_dispatch (m : Medium) (d : Duck) (buf : Mem)
    (len : Nat) :
    (rd buf 0 = 122 →
      process_serial_command m d buf len = ("", { d with report_index := 0 })) ∧
    (rd buf 0 ∉ ([118, 63, 119, 100, 106, 114, 64, 112, 115, 122] : List Nat) →
      process_serial_command m d buf len =
        ("invalid command, try ? for help", d)) := by
  constructor
  · intro h
    simp [process_serial_command, h]
  · intro h
    simp only [List.mem_cons, List.not_mem_nil, or_false, not_or] at h
    obtain ⟨h1, h2, h3, h4, h5, h6, h7, h8, h9, h10⟩ := h
    simp [process_serial_command, h1, h2, h3, h4, h5, h6, h7, h8, h9, h10]

/-- Claim C9 witness: concrete `z` and `q` lines against a concrete
state with cursor index 7. -/
theorem claim_C9_reset_and_unknown_dispatch_witness :
    process_serial_command mediumHealthy duck7 lineZ 2 =
      ("", { duck7 with report_index := 0 }) ∧
    process_serial_command mediumHealthy duck7 lineQ 2 =
      ("invalid command, try ? for help", duck7) :=
  ⟨(claim_C9_reset_and_unknown_dispatch mediumHealthy duck7 lineZ 2).1 rfl,
   (claim_C9_reset_and_unknown_dispatch mediumHealthy duck7 lineQ 2).2 (by decide)⟩

/-! ### Record-array lemmas for the codec and pattern generator -/

theorem setField_ne_rec (mm : RecArr) (j k v j' k' : Nat) (h : j' ≠ j) :
    setField mm j k v j' k' = mm j' k' := by
  simp [setField, h]

theorem setFields_ne (j j' k : Nat) (h : j' ≠ j) :
    ∀ (ps : List (Nat × Nat)) (mm : RecArr), setFields mm j ps j' k = mm j' k := by
  intro ps
  induction ps with
  | nil => intro mm; rfl
  | cons p ps ih =>
    intro mm
    show setFields (setField mm j p.1 p.2) j ps j' k = mm j' k
    rw [ih]
    simp [setField, h]

theorem readRecord_congr (m1 m2 : RecArr) (j : Nat) (h : ∀ k, m1 j k = m2 j k) :
    readRecord m1 j = readRecord m2 j := by
  unfold readRecord
  rw [h 0, h 1, h 2, h 3, h 4, h 5, h 6, h 7, h 8, h 9]

theorem recordsFrom_succ (mm : RecArr) (j n : Nat) :
    recordsFrom mm j (n + 1) = readRecord mm j :: recordsFrom mm (j + 1) n := rfl

theorem recordsFrom_add (mm : RecArr) (a : Nat) :
    ∀ (j b : Nat), recordsFrom mm j (a + b) =
      recordsFrom mm j a ++ recordsFrom mm (j + a) b := by
  induction a with
  | zero => intro j b; simp [recordsFrom]
  | succ a ih =>
    intro j b
    have hn : a + 1 + b = (a + b) + 1 := by omega
    rw [hn, recordsFrom_succ, recordsFrom_succ, ih (j + 1) b]
    simp only [List.cons_append]
    have : j + 1 + a = j + (a + 1) := by omega
    rw [this]

theorem recordsFrom_congr (m1 m2 : RecArr) (j n : Nat)
    (h : ∀ j', j ≤ j' → j' < j + n → ∀ k, m1 j' k = m2 j' k) :
    recordsFrom m1 j n = recordsFrom m2 j n := by
  unfold recordsFrom
  apply List.map_congr_left
  intro x hx
  have hm := List.mem_range'_1.mp hx
  exact readRecord_congr m1 m2 x (h x hm.1 hm.2)

theorem recordsOut_eq_from (mm : RecArr) (n : Nat) :
    recordsOut mm n = recordsFrom mm 0 n := by
  simp [recordsOut, recordsFrom, List.range_eq_range']

theorem readRecord_setFields_kbd (mm : RecArr) (j hi lo : Nat) :
    readRecord (setFields mm j
      [(0, REPORT_ID_KEYBOARD), (1, hi), (2, 1), (3, lo),
       (4, 0), (5, 0), (6, 0), (7, 0), (8, 0), (9, 0)]) j =
      SpecRecord.keyboard (hi % 256) 1 (lo % 256) 0 0 0 0 0 0 := by
  simp [readRecord, setFields, setField, REPORT_ID_KEYBOARD, REPORT_ID_MOUSE,
    REPORT_ID_DELAY, REPORT_ID_END]

theorem readRecord_setFields_delay (mm : RecArr) (j hi : Nat) :
    readRecord (setFields mm j [(0, REPORT_ID_DELAY), (1, hi)]) j =
      SpecRecord.delay (hi % 256) := by
  simp [readRecord, setFields, setField, REPORT_ID_KEYBOARD, REPORT_ID_MOUSE,
    REPORT_ID_DELAY, REPORT_ID_END]

theorem readRecord_setFields_mouse (mm : RecArr) (j dx : Nat) :
    readRecord (setFields mm j
      [(0, REPORT_ID_MOUSE), (1, 0), (2, dx), (3, 0), (4, 0)]) j =
      SpecRecord.pointer 0 (dx % 256) 0 0 := by
  simp [readRecord, setFields, setField, REPORT_ID_KEYBOARD, REPORT_ID_MOUSE,
    REPORT_ID_DELAY, REPORT_ID_END]

theorem readRecord_setField_end (mm : RecArr) (j : Nat) :
    readRecord (setField mm j 0 REPORT_ID_END) j = SpecRecord.endRec := by
  simp [readRecord, setField, REPORT_ID_KEYBOARD, REPORT_ID_MOUSE,
    REPORT_ID_DELAY, REPORT_ID_END]

theorem rd_mod (mm : Mem) (a : Nat) : rd mm a % 256 = rd mm a := by
  unfold rd
  omega

/-! ### Claim theorems: pattern generator -/

theorem jigLoop_frame (dx : Nat) :
    ∀ (n j : Nat) (mm : RecArr) (j' k : Nat), j' < j →
      (jigLoop dx n j mm).2 j' k = mm j' k := by
  intro n
  induction n with
  | zero => intro j mm j' k h; rfl
  | succ n ih =>
    intro j mm j' k h
    show (jigLoop dx n (j + 1)
      (setFields mm j [(0, REPORT_ID_MOUSE), (1, 0), (2, dx), (3, 0), (4, 0)])).2 j' k =
        mm j' k
    rw [ih (j + 1) _ j' k (by omega), setFields_ne j j' k (by omega)]

theorem jigLoop_spec (dx : Nat) :
    ∀ (n j : Nat) (mm : RecArr),
      (jigLoop dx n j mm).1 = j + n ∧
      recordsFrom (jigLoop dx n j mm).2 j n =
        List.replicate n (SpecRecord.pointer 0 (dx % 256) 0 0) := by
  intro n
  induction n with
  | zero => intro j mm; exact ⟨rfl, rfl⟩
  | succ n ih =>
    intro j mm
    show (jigLoop dx n (j + 1)
        (setFields mm j [(0, REPORT_ID_MOUSE), (1, 0), (2, dx), (3, 0), (4, 0)])).1 = _ ∧
      recordsFrom (jigLoop dx n (j + 1)
        (setFields mm j [(0, REPORT_ID_MOUSE), (1, 0), (2, dx), (3, 0), (4, 0)])).2 j (n + 1) = _
    obtain ⟨ih1, ih2⟩ := ih (j + 1)
      (setFields mm j [(0, REPORT_ID_MOUSE), (1, 0), (2, dx), (3, 0), (4, 0)])
    constructor
    · rw [ih1]; omega
    · rw [recordsFrom_succ, ih2]
      have hhead : readRecord (jigLoop dx n (j + 1)
          (setFields mm j [(0, REPORT_ID_MOUSE), (1, 0), (2, dx), (3, 0), (4, 0)])).2 j =
          SpecRecord.pointer 0 (dx % 256) 0 0 := by
        rw [readRecord_congr _
          (setFields mm j [(0, REPORT_ID_MOUSE), (1, 0), (2, dx), (3, 0), (4, 0)]) j
          (fun k => jigLoop_frame dx n (j + 1) _ j k (by omega))]
        exact readRecord_setFields_mouse mm j dx
      rw [hhead, List.replicate_succ]

/-- Claim C8: the jiggler is a pure function of `width` producing
`2*width + 1` records — `width` Pointer records with X delta `+1` (all
other payload fields zero), then `width` Pointer records with X delta
`-1` (stored byte `0xff`), then one End record; for `width = 30` that
is 61 records, and the signed X deltas sum to zero. -/
theorem claim_C8_jiggler_symmetry (width : Nat) (pb : RecArr) :
    (add_mouse_jiggler width pb).1 = 2 * width + 1 ∧
    recordsOut (add_mouse_jiggler width pb).2 (add_mouse_jiggler width pb).1 =
      List.replicate width (SpecRecord.pointer 0 1 0 0) ++
        (List.replicate width (SpecRecord.pointer 0 255 0 0) ++ [SpecRecord.endRec]) ∧
    (List.map xDelta (recordsOut (add_mouse_jiggler width pb).2
        (add_mouse_jiggler width pb).1)).sum = 0 ∧
    (add_mouse_jiggler 30 pb).1 = 61 := by
  have hlist : ∀ (w : Nat) (mm : RecArr),
      (add_mouse_jiggler w mm).1 = 2 * w + 1 ∧
      recordsOut (add_mouse_jiggler w mm).2 (add_mouse_jiggler w mm).1 =
        List.replicate w (SpecRecord.pointer 0 1 0 0) ++
          (List.replicate w (SpecRecord.pointer 0 255 0 0) ++ [SpecRecord.endRec]) := by
    intro w mm
    obtain ⟨ha1, ha2⟩ := jigLoop_spec (toByte 1) w 0 mm
    obtain ⟨hb1, hb2⟩ := jigLoop_spec (toByte (-1)) w
      (jigLoop (toByte 1) w 0 mm).1 (jigLoop (toByte 1) w 0 mm).2
    have hcount : (add_mouse_jiggler w mm).1 = 2 * w + 1 := by
      show (jigLoop (toByte (-1)) w (jigLoop (toByte 1) w 0 mm).1
        (jigLoop (toByte 1) w 0 mm).2).1 + 1 = 2 * w + 1
      rw [hb1, ha1]
      omega
    have hfinal2 : ∀ j' k, j' < 2 * w →
        (add_mouse_jiggler w mm).2 j' k =
          (jigLoop (toByte (-1)) w (jigLoop (toByte 1) w 0 mm).1
            (jigLoop (toByte 1) w 0 mm).2).2 j' k := by
      intro j' k hj'
      show setField ((jigLoop (toByte (-1)) w (jigLoop (toByte 1) w 0 mm).1
          (jigLoop (toByte 1) w 0 mm).2).2)
        ((jigLoop (toByte (-1)) w (jigLoop (toByte 1) w 0 mm).1
          (jigLoop (toByte 1) w 0 mm).2).1) 0 REPORT_ID_END j' k = _
      rw [setField_ne_rec]
      rw [hb1, ha1]
      omega
    have hpart1 : recordsFrom (add_mouse_jiggler w mm).2 0 w =
        List.replicate w (SpecRecord.pointer 0 1 0 0) := by
      rw [recordsFrom_congr (add_mouse_jiggler w mm).2
        (jigLoop (toByte 1) w 0 mm).2 0 w ?_]
      · simpa [toByte] using ha2
      · intro j' _ hj' k
        rw [hfinal2 j' k (by omega)]
        exact jigLoop_frame (toByte (-1)) w _ _ j' k (by rw [ha1]; omega)
    have hpart2 : recordsFrom (add_mouse_jiggler w mm).2
        (jigLoop (toByte 1) w 0 mm).1 w =
        List.replicate w (SpecRecord.pointer 0 255 0 0) := by
      rw [recordsFrom_congr (add_mouse_jiggler w mm).2
        ((jigLoop (toByte (-1)) w (jigLoop (toByte 1) w 0 mm).1
          (jigLoop (toByte 1) w 0 mm).2).2) (jigLoop (toByte 1) w 0 mm).1 w ?_]
      · simpa [toByte] using hb2
      · intro j' hj1 hj2 k
        refine hfinal2 j' k ?_
        rw [ha1] at hj2
        omega
    rw [ha1, Nat.zero_add] at hpart2
    have hpart3 : recordsFrom (add_mouse_jiggler w mm).2
        ((jigLoop (toByte (-1)) w (jigLoop (toByte 1) w 0 mm).1
          (jigLoop (toByte 1) w 0 mm).2).1) 1 = [SpecRecord.endRec] := by
      rw [recordsFrom_succ]
      show readRecord (setField ((jigLoop (toByte (-1)) w (jigLoop (toByte 1) w 0 mm).1
          (jigLoop (toByte 1) w 0 mm).2).2)
        ((jigLoop (toByte (-1)) w (jigLoop (toByte 1) w 0 mm).1
          (jigLoop (toByte 1) w 0 mm).2).1) 0 REPORT_ID_END)
          ((jigLoop (toByte (-1)) w (jigLoop (toByte 1) w 0 mm).1
            (jigLoop (toByte 1) w 0 mm).2).1) ::
        recordsFrom (add_mouse_jiggler w mm).2 _ 0 = [SpecRecord.endRec]
      rw [readRecord_setField_end]
      rfl
    rw [hb1, ha1, Nat.zero_add] at hpart3
    refine ⟨hcount, ?_⟩
    rw [hcount, recordsOut_eq_from]
    have hsplit : 2 * w + 1 = w + (w + 1) := by omega
    rw [hsplit, recordsFrom_add _ w 0 (w + 1), Nat.zero_add,
      recordsFrom_add _ w w 1, hpart1, hpart2]
    rw [show w + w = 2 * w from by omega] at hpart3
    rw [show w + w = 2 * w from by omega, hpart3]
  obtain ⟨h1, h2⟩ := hlist width pb
  refine ⟨h1, h2, ?_, (hlist 30 pb).1⟩
  rw [h2]
  simp [xDelta, toInt8, List.sum_replicate]

/-! ### Claim theorems: bytecode decoder -/

theorem convertWords_frame (buf : Mem) :
    ∀ (n i j : Nat) (out : RecArr) (j' k : Nat), j' < j →
      (convertWords buf n i j out).2 j' k = out j' k := by
  intro n
  induction n with
  | zero => intro i j out j' k h; rfl
  | succ n ih =>
    intro i j out j' k h
    by_cases hlo : rd buf i = 0
    · show (if rd buf i = 0 then _ else _ : Nat × RecArr).2 j' k = out j' k
      rw [if_pos hlo, ih (i + 2) (j + 1) _ j' k (by omega),
        setFields_ne j j' k (by omega)]
    · show (if rd buf i = 0 then _ else _ : Nat × RecArr).2 j' k = out j' k
      rw [if_neg hlo, ih (i + 2) (j + 2) _ j' k (by omega),
        setFields_ne (j + 1) j' k (by omega), setFields_ne j j' k (by omega)]

theorem convertWords_spec (buf : Mem) :
    ∀ (n i j : Nat) (out : RecArr),
      (convertWords buf n i j out).1 =
        j + ((wordsFrom buf i n).flatMap duckySpecExpand).length ∧
      recordsFrom (convertWords buf n i j out).2 j
          ((wordsFrom buf i n).flatMap duckySpecExpand).length =
        (wordsFrom buf i n).flatMap duckySpecExpand := by
  intro n
  induction n with
  | zero => intro i j out; exact ⟨by simp [convertWords, wordsFrom], rfl⟩
  | succ n ih =>
    intro i j out
    have hw : wordsFrom buf i (n + 1) =
        (rd buf i, rd buf (i + 1)) :: wordsFrom buf (i + 2) n := rfl
    by_cases hlo : rd buf i = 0
    · have hexp : (wordsFrom buf i (n + 1)).flatMap duckySpecExpand =
          SpecRecord.delay (rd buf (i + 1)) ::
            (wordsFrom buf (i + 2) n).flatMap duckySpecExpand := by
        rw [hw]
        simp [duckySpecExpand, hlo]
      have hred : convertWords buf (n + 1) i j out =
          convertWords buf n (i + 2) (j + 1)
            (setFields out j [(0, REPORT_ID_DELAY), (1, rd buf (i + 1))]) := by
        show (if rd buf i = 0 then _ else _ : Nat × RecArr) = _
        rw [if_pos hlo]
      obtain ⟨ih1, ih2⟩ := ih (i + 2) (j + 1)
        (setFields out j [(0, REPORT_ID_DELAY), (1, rd buf (i + 1))])
      rw [hred, hexp]
      refine ⟨by rw [ih1]; simp; omega, ?_⟩
      rw [List.length_cons, recordsFrom_succ, ih2]
      have hhead : readRecord (convertWords buf n (i + 2) (j + 1)
          (setFields out j [(0, REPORT_ID_DELAY), (1, rd buf (i + 1))])).2 j =
          SpecRecord.delay (rd buf (i + 1)) := by
        rw [readRecord_congr _
          (setFields out j [(0, REPORT_ID_DELAY), (1, rd buf (i + 1))]) j
          (fun k => convertWords_frame buf n (i + 2) (j + 1) _ j k (by omega))]
        rw [readRecord_setFields_delay, rd_mod]
      rw [hhead]
    · have hexp : (wordsFrom buf i (n + 1)).flatMap duckySpecExpand =
          SpecRecord.keyboard (rd buf (i + 1)) 1 (rd buf i) 0 0 0 0 0 0 ::
            SpecRecord.keyboard 0 1 0 0 0 0 0 0 0 ::
              (wordsFrom buf (i + 2) n).flatMap duckySpecExpand := by
        rw [hw]
        simp [duckySpecExpand, hlo]
      have hred : convertWords buf (n + 1) i j out =
          convertWords buf n (i + 2) (j + 2)
            (setFields (setFields out j
              [(0, REPORT_ID_KEYBOARD), (1, rd buf (i + 1)), (2, 1), (3, rd buf i),
               (4, 0), (5, 0), (6, 0), (7, 0), (8, 0), (9, 0)]) (j + 1)
              [(0, REPORT_ID_KEYBOARD), (1, 0), (2, 1), (3, 0),
               (4, 0), (5, 0), (6, 0), (7, 0), (8, 0), (9, 0)]) := by
        show (if rd buf i = 0 then _ else _ : Nat × RecArr) = _
        rw [if_neg hlo]
      obtain ⟨ih1, ih2⟩ := ih (i + 2) (j + 2)
        (setFields (setFields out j
          [(0, REPORT_ID_KEYBOARD), (1, rd buf (i + 1)), (2, 1), (3, rd buf i),
           (4, 0), (5, 0), (6, 0), (7, 0), (8, 0), (9, 0)]) (j + 1)
          [(0, REPORT_ID_KEYBOARD), (1, 0), (2, 1), (3, 0),
           (4, 0), (5, 0), (6, 0), (7, 0), (8, 0), (9, 0)])
      rw [hred, hexp]
      refine ⟨by rw [ih1]; simp; omega, ?_⟩
      rw [List.length_cons, List.length_cons, recordsFrom_succ, recordsFrom_succ, ih2]
      have hframe : ∀ jj kk, jj < j + 2 →
          (convertWords buf n (i + 2) (j + 2)
            (setFields (setFields out j
              [(0, REPORT_ID_KEYBOARD), (1, rd buf (i + 1)), (2, 1), (3, rd buf i),
               (4, 0), (5, 0), (6, 0), (7, 0), (8, 0), (9, 0)]) (j + 1)
              [(0, REPORT_ID_KEYBOARD), (1, 0), (2, 1), (3, 0),
               (4, 0), (5, 0), (6, 0), (7, 0), (8, 0), (9, 0)])).2 jj kk =
          (setFields (setFields out j
              [(0, REPORT_ID_KEYBOARD), (1, rd buf (i + 1)), (2, 1), (3, rd buf i),
               (4, 0), (5, 0), (6, 0), (7, 0), (8, 0), (9, 0)]) (j + 1)
              [(0, REPORT_ID_KEYBOARD), (1, 0), (2, 1), (3, 0),
               (4, 0), (5, 0), (6, 0), (7, 0), (8, 0), (9, 0)]) jj kk :=
        fun jj kk hjj => convertWords_frame buf n (i + 2) (j + 2) _ jj kk hjj
      have hhead1 : readRecord (convertWords buf n (i + 2) (j + 2)
          (setFields (setFields out j
            [(0, REPORT_ID_KEYBOARD), (1, rd buf (i + 1)), (2, 1), (3, rd buf i),
             (4, 0), (5, 0), (6, 0), (7, 0), (8, 0), (9, 0)]) (j + 1)
            [(0, REPORT_ID_KEYBOARD), (1, 0), (2, 1), (3, 0),
             (4, 0), (5, 0), (6, 0), (7, 0), (8, 0), (9, 0)])).2 j =
          SpecRecord.keyboard (rd buf (i + 1)) 1 (rd buf i) 0 0 0 0 0 0 := by
        rw [readRecord_congr _ _ j (fun k => hframe j k (by omega))]
        rw [readRecord_congr _
          (setFields out j
            [(0, REPORT_ID_KEYBOARD), (1, rd buf (i + 1)), (2, 1), (3, rd buf i),
             (4, 0), (5, 0), (6, 0), (7, 0), (8, 0), (9, 0)]) j
          (fun k => setFields_ne (j + 1) j k (by omega) _ _)]
        rw [readRecord_setFields_kbd, rd_mod, rd_mod]
      have hhead2 : readRecord (convertWords buf n (i + 2) (j + 2)
          (setFields (setFields out j
            [(0, REPORT_ID_KEYBOARD), (1, rd buf (i + 1)), (2, 1), (3, rd buf i),
             (4, 0), (5, 0), (6, 0), (7, 0), (8, 0), (9, 0)]) (j + 1)
            [(0, REPORT_ID_KEYBOARD), (1, 0), (2, 1), (3, 0),
             (4, 0), (5, 0), (6, 0), (7, 0), (8, 0), (9, 0)])).2 (j + 1) =
          SpecRecord.keyboard 0 1 0 0 0 0 0 0 0 := by
        rw [readRecord_congr _ _ (j + 1) (fun k => hframe (j + 1) k (by omega))]
        rw [readRecord_setFields_kbd]
      rw [hhead1, hhead2]

theorem flatMap_expand_length (ws : List (Nat × Nat)) :
    (ws.flatMap duckySpecExpand).length =
      2 * ((ws.filter (fun w => decide (w.1 ≠ 0))).length) +
        ((ws.filter (fun w => decide (w.1 = 0))).length) := by
  induction ws with
  | nil => rfl
  | cons w ws ih =>
    by_cases h : w.1 = 0
    · simp only [List.flatMap_cons, List.length_append, ih, duckySpecExpand, h,
        if_pos, List.filter_cons]
      simp [h]
      omega
    · simp only [List.flatMap_cons, List.length_append, ih, duckySpecExpand, h,
        List.filter_cons]
      simp [h]
      omega

/-- Claim C2: the bytecode decoder realizes the spec expansion — each
word with nonzero low byte becomes exactly a press record (modifiers =
high byte, first key slot = low byte, reserved = 1) followed by an
all-up release record (reserved = 1); each word with zero low byte
becomes exactly one Delay record with duration = high byte; a trailing
odd byte is dropped; one End record is appended; and `k` keystroke
words plus `d` delay words produce `2*k + d + 1` records. -/
theorem claim_C2_bytecode_expansion (buf : Mem) (len : Nat) (out : RecArr) :
    recordsOut (convert_ducky_binary buf len out).2 (convert_ducky_binary buf len out).1 =
      duckySpecDecode buf len ∧
    (convert_ducky_binary buf len out).1 =
      2 * keyWordCount buf len + delayWordCount buf len + 1 := by
  obtain ⟨h1, h2⟩ := convertWords_spec buf ((len - len % 2) / 2) 0 0 out
  have hfst : (convert_ducky_binary buf len out).1 =
      (convertWords buf ((len - len % 2) / 2) 0 0 out).1 + 1 := rfl
  have hsnd : (convert_ducky_binary buf len out).2 =
      setField (convertWords buf ((len - len % 2) / 2) 0 0 out).2
        (convertWords buf ((len - len % 2) / 2) 0 0 out).1 0 REPORT_ID_END := rfl
  have hwords : duckyWords buf len = wordsFrom buf 0 ((len - len % 2) / 2) := rfl
  constructor
  · rw [hfst, hsnd, recordsOut_eq_from, recordsFrom_add _
      ((convertWords buf ((len - len % 2) / 2) 0 0 out).1) 0 1, Nat.zero_add]
    have hp1 : recordsFrom
        (setField (convertWords buf ((len - len % 2) / 2) 0 0 out).2
          (convertWords buf ((len - len % 2) / 2) 0 0 out).1 0 REPORT_ID_END) 0
        (convertWords buf ((len - len % 2) / 2) 0 0 out).1 =
        (wordsFrom buf 0 ((len - len % 2) / 2)).flatMap duckySpecExpand := by
      rw [recordsFrom_congr _ ((convertWords buf ((len - len % 2) / 2) 0 0 out).2) 0 _ ?_]
      · rw [show (convertWords buf ((len - len % 2) / 2) 0 0 out).1 =
            ((wordsFrom buf 0 ((len - len % 2) / 2)).flatMap duckySpecExpand).length
          from by rw [h1]; omega]
        exact h2
      · intro j' _ hj' k
        exact setField_ne_rec _ _ _ _ _ _ (by omega)
    have hp2 : recordsFrom
        (setField (convertWords buf ((len - len % 2) / 2) 0 0 out).2
          (convertWords buf ((len - len % 2) / 2) 0 0 out).1 0 REPORT_ID_END)
        (convertWords buf ((len - len % 2) / 2) 0 0 out).1 1 = [SpecRecord.endRec] := by
      rw [recordsFrom_succ, readRecord_setField_end]
      rfl
    rw [hp1, hp2, duckySpecDecode, hwords]
  · rw [hfst, h1, flatMap_expand_length]
    unfold keyWordCount delayWordCount
    rw [hwords]
    omega

/-! ### Claim theorems: raw write length handling -/

/-- Claim C1 is refuted by the code: for the received line `wab\r`
(command byte `w`, payload `ab`, CR terminator, `len = 4`), the write
branch calls `unhexify` with `size = len`, consuming `2*len = 8`
characters — four past the end of the line, i.e. stale typing-buffer
content — and passes `num_elements = len/2 = 2` to the store, so the
flash word holds a byte decoded from the CR terminator and stale
characters.  The two buffers below agree on the entire 4-byte line yet
the programmed flash image differs (byte 1 is 233 with a zeroed tail
and 111 with stale `f` characters), so more characters are decoded and
more bytes programmed than the payload provides. -/
theorem claim_C1_write_decodes_past_payload :
    (∀ a, a < 4 → lineW1 a = lineW2 a) ∧
    (process_serial_command mediumHealthy duck0 lineW1 4).2.user_data 1 = 233 ∧
    (process_serial_command mediumHealthy duck0 lineW2 4).2.user_data 1 = 111 ∧
    (process_serial_command mediumHealthy duck0 lineW1 4).2.user_data 1 ≠
      (process_serial_command mediumHealthy duck0 lineW2 4).2.user_data 1 := by
  refine ⟨by decide, by decide, by decide, by decide⟩

end PillDuck
